import Mathlib

/-!
Verification of the claide-terminal core (Rust) against its specification.

This file shallowly embeds the relevant functions of the repository
(src/rust/claide-terminal/src/pty_reader.rs, grid_snapshot.rs, handle.rs,
ffi.rs) as executable Lean definitions over lists of bytes (Nat) and
explicit state records, and proves or refutes the frozen claims about them.
Bytes are modelled as Nat; machine-integer casts are written with explicit
truncation where a claim touches them.
-/

namespace Claide

/-! ## pty_reader.rs: OSC sniffer -/

/-- Embeds `find_osc_terminator` (pty_reader.rs lines 172-185), tracking the
iterator index `i`.  A byte 0x07 (BEL) terminates with length 1; an ESC
followed by a backslash terminates with length 2; any other byte at an index
greater than 4096 aborts the search. -/
def findOscTerminatorAux : List Nat → Nat → Option (Nat × Nat)
  | [], _ => none
  | b :: rest, i =>
    if b = 0x07 then some (i, 1)
    else if b = 0x1b ∧ rest.head? = some 0x5c then some (i, 2)
    else if i > 4096 then none
    else findOscTerminatorAux rest (i + 1)

/-- Embeds `find_osc_terminator(data)`: returns `(payload_length, terminator_length)`. -/
def find_osc_terminator (data : List Nat) : Option (Nat × Nat) :=
  findOscTerminatorAux data 0

theorem findOscTerminatorAux_term_pos :
    ∀ (data : List Nat) (i e t : Nat),
      findOscTerminatorAux data i = some (e, t) → 1 ≤ t := by
  intro data
  induction data with
  | nil => intro i e t h; simp [findOscTerminatorAux] at h
  | cons b rest ih =>
    intro i e t h
    unfold findOscTerminatorAux at h
    split at h
    · simp at h; omega
    · split at h
      · simp at h; omega
      · split at h
        · simp at h
        · exact ih _ _ _ h

/-- The introducer searched for by `scan_osc7`: ESC ] 7 ; . -/
def osc7Intro : List Nat := [0x1b, 0x5d, 0x37, 0x3b]

/-- The introducer searched for by `scan_osc94`: ESC ] 9 ; 4 ; . -/
def osc94Intro : List Nat := [0x1b, 0x5d, 0x39, 0x3b, 0x34, 0x3b]

/-- Embeds the main scanning loop shared (textually) by `scan_osc7` and
`scan_osc94`: advance to each ESC byte (memchr), check the introducer, and on
a terminated payload emit `parse payload` and continue after the terminator.
If the introducer matches but no terminator is found, the remainder of the
buffer after the introducer becomes the new continuation buffer (second
component).  Skipping one byte at a time over non-ESC bytes is the same
left-to-right traversal memchr performs in bulk. -/
def scanOscMain (intro : List Nat) (parse : List Nat → Option α) :
    List Nat → List α × List Nat
  | [] => ([], [])
  | b :: rest =>
    if b = 0x1b ∧ List.isPrefixOf intro (b :: rest) then
      let content := (b :: rest).drop intro.length
      match h : find_osc_terminator content with
      | some (e, t) =>
        let payload := content.take e
        let r := scanOscMain intro parse (content.drop (e + t))
        ((parse payload).toList ++ r.1, r.2)
      | none => ([], content)
    else scanOscMain intro parse rest
  termination_by l => l.length
  decreasing_by
  · have ht : 1 ≤ t := findOscTerminatorAux_term_pos _ _ _ _ h
    simp only [List.length_drop, List.length_cons]
    omega
  · simp only [List.length_cons]; omega

/-- UTF-8 continuation byte test (0x80..=0xBF). -/
def isUtf8Cont (b : Nat) : Bool := 0x80 ≤ b && b ≤ 0xBF

/-- One step of the UTF-8 validation automaton used by Rust's
`std::str::from_utf8`.  The state is `none` (already invalid) or the list of
`(lo, hi)` ranges the next continuation bytes must fall into (empty at a
character boundary).  Leader bytes install the exact continuation ranges that
rule out overlong forms, surrogates, and code points above U+10FFFF. -/
def utf8Step : Option (List (Nat × Nat)) → Nat → Option (List (Nat × Nat))
  | none, _ => none
  | some [], b =>
    if b ≤ 0x7F then some []
    else if 0xC2 ≤ b ∧ b ≤ 0xDF then some [(0x80, 0xBF)]
    else if b = 0xE0 then some [(0xA0, 0xBF), (0x80, 0xBF)]
    else if (0xE1 ≤ b ∧ b ≤ 0xEC) ∨ b = 0xEE ∨ b = 0xEF then
      some [(0x80, 0xBF), (0x80, 0xBF)]
    else if b = 0xED then some [(0x80, 0x9F), (0x80, 0xBF)]
    else if b = 0xF0 then some [(0x90, 0xBF), (0x80, 0xBF), (0x80, 0xBF)]
    else if 0xF1 ≤ b ∧ b ≤ 0xF3 then
      some [(0x80, 0xBF), (0x80, 0xBF), (0x80, 0xBF)]
    else if b = 0xF4 then some [(0x80, 0x8F), (0x80, 0xBF), (0x80, 0xBF)]
    else none
  | some ((lo, hi) :: pend), b =>
    if lo ≤ b ∧ b ≤ hi then some pend else none

/-- Validity of a byte sequence as UTF-8, with the exact shape accepted by
Rust's `std::str::from_utf8`: the automaton accepts and ends at a character
boundary. -/
def isValidUtf8 (l : List Nat) : Bool :=
  match l.foldl utf8Step (some []) with
  | some [] => true
  | _ => false

/-- `scan_osc7` pushes a result only when the payload is valid UTF-8
(`std::str::from_utf8(..).is_ok()`); results are kept as the payload bytes. -/
def oscParse7 (payload : List Nat) : Option (List Nat) :=
  if isValidUtf8 payload then some payload else none

/-- Embeds `scan_osc7(data, partial)` (pty_reader.rs lines 120-168).  Returns
the emitted directory payloads and the continuation buffer after the call.
The Rust recursion `scan_osc7(rest, partial)` after completing a carried
sequence always runs with an empty continuation buffer, which is exactly
`scanOscMain`. -/
def scan_osc7 (data pbuf : List Nat) : List (List Nat) × List Nat :=
  if pbuf = [] then scanOscMain osc7Intro oscParse7 data
  else
    match find_osc_terminator data with
    | some (e, t) =>
      let completed := pbuf ++ data.take e
      let r := scanOscMain osc7Intro oscParse7 (data.drop (e + t))
      ((oscParse7 completed).toList ++ r.1, r.2)
    | none =>
      if data.length + pbuf.length > 4096 then scanOscMain osc7Intro oscParse7 data
      else ([], pbuf ++ data)

/-- Parsed OSC 9;4 progress report (pty_reader.rs lines 15-19). -/
structure ProgressReport where
  state : Nat
  progress : Int
  deriving Repr, DecidableEq

/-- One decimal digit byte. -/
def decDigit? (b : Nat) : Option Nat :=
  if 0x30 ≤ b ∧ b ≤ 0x39 then some (b - 0x30) else none

/-- Accumulate decimal digit bytes; any non-digit fails. -/
def parseNatDigitsAux : List Nat → Nat → Option Nat
  | [], acc => some acc
  | b :: rest, acc =>
    match decDigit? b with
    | some d => parseNatDigitsAux rest (acc * 10 + d)
    | none => none

/-- Embeds Rust `str::parse::<u8>`: optional leading '+', then one or more
decimal digits, value at most 255.  (Rust reports overflow as soon as an
intermediate value exceeds the bound; since digits only grow the value, that
is equivalent to a final range check.) -/
def parseU8 (s : List Nat) : Option Nat :=
  let t := if s.head? = some 0x2B then s.drop 1 else s
  if t = [] then none
  else
    match parseNatDigitsAux t 0 with
    | some v => if v ≤ 255 then some v else none
    | none => none

/-- Embeds Rust `str::parse::<i32>`: optional sign, decimal digits, value in
the i32 range. -/
def parseI32 (s : List Nat) : Option Int :=
  match s with
  | 0x2B :: rest =>
    if rest = [] then none
    else
      match parseNatDigitsAux rest 0 with
      | some v => if v ≤ 2147483647 then some (v : Int) else none
      | none => none
  | 0x2D :: rest =>
    if rest = [] then none
    else
      match parseNatDigitsAux rest 0 with
      | some v => if v ≤ 2147483648 then some (-(v : Int)) else none
      | none => none
  | _ =>
    if s = [] then none
    else
      match parseNatDigitsAux s 0 with
      | some v => if v ≤ 2147483647 then some (v : Int) else none
      | none => none

/-- Embeds `parse_osc94_content` (pty_reader.rs lines 242-257): decode the
content as UTF-8, split on ';', parse the first field as a u8 state (at most
4), and the second field, when present and non-empty, as an i32 progress
(else −1).  For valid UTF-8 the byte-level split on 0x3B coincides with
Rust's character-level `split(';')`, since 0x3B never occurs inside a
multi-byte encoding. -/
def parse_osc94_content (content : List Nat) : Option ProgressReport :=
  if isValidUtf8 content then
    match content.splitOn 0x3B with
    | [] => none
    | f0 :: restFields =>
      match parseU8 f0 with
      | none => none
      | some st =>
        if st > 4 then none
        else
          match restFields with
          | [] => some ⟨st, -1⟩
          | f1 :: _ =>
            if f1 = [] then some ⟨st, -1⟩
            else
              match parseI32 f1 with
              | some p => some ⟨st, p⟩
              | none => none
  else none

/-- Embeds `scan_osc94(data, partial)` (pty_reader.rs lines 192-238); same
structure as `scan_osc7` with the longer introducer and the progress parser. -/
def scan_osc94 (data pbuf : List Nat) : List ProgressReport × List Nat :=
  if pbuf = [] then scanOscMain osc94Intro parse_osc94_content data
  else
    match find_osc_terminator data with
    | some (e, t) =>
      let completed := pbuf ++ data.take e
      let r := scanOscMain osc94Intro parse_osc94_content (data.drop (e + t))
      ((parse_osc94_content completed).toList ++ r.1, r.2)
    | none =>
      if data.length + pbuf.length > 4096 then scanOscMain osc94Intro parse_osc94_content data
      else ([], pbuf ++ data)

/-- Modelled from the amended claim for OSC 9;4 parsing: success requires the
content to be valid UTF-8, the first ';'-separated field to parse as a u8 in
{0,1,2,3,4}, and, when a second field is present and non-empty, that field to
parse as a signed 32-bit integer; the progress is that integer when present
and non-empty, else −1. -/
def osc94AmendedSpec (content : List Nat) : Option ProgressReport :=
  if ¬ isValidUtf8 content then none
  else
    let fields := content.splitOn 0x3B
    match parseU8 (fields.headD []) with
    | none => none
    | some st =>
      if st ≤ 4 then
        let f1 := fields.getD 1 []
        if f1 = [] then some ⟨st, -1⟩
        else (parseI32 f1).map fun p => ⟨st, p⟩
      else none

/-! ### Scanner lemmas -/

/-- A buffer without BEL and without ESC bytes has no OSC terminator,
whatever the starting index. -/
theorem findOscTerminatorAux_none_of_clean (p : List Nat)
    (hp : ∀ b ∈ p, b ≠ 0x07 ∧ b ≠ 0x1b) :
    ∀ i, findOscTerminatorAux p i = none := by
  induction p with
  | nil => intro i; rfl
  | cons b rest ih =>
    intro i
    have hb := hp b (List.mem_cons_self b rest)
    have hrest : ∀ x ∈ rest, x ≠ 0x07 ∧ x ≠ 0x1b :=
      fun x hx => hp x (List.mem_cons_of_mem b hx)
    unfold findOscTerminatorAux
    rw [if_neg hb.1, if_neg (by simp [hb.2])]
    split
    · rfl
    · exact ih hrest (i + 1)

/-- A clean payload of `p.length` bytes followed by BEL terminates at index
`i + p.length` with terminator length 1, provided the scan stays within the
index guard. -/
theorem findOscTerminatorAux_clean_bel (p : List Nat) (rest : List Nat)
    (hp : ∀ b ∈ p, b ≠ 0x07 ∧ b ≠ 0x1b) :
    ∀ i, i + p.length ≤ 4097 →
      findOscTerminatorAux (p ++ 0x07 :: rest) i = some (i + p.length, 1) := by
  induction p with
  | nil =>
    intro i _
    simp [findOscTerminatorAux]
  | cons b tail ih =>
    intro i hi
    have hb := hp b (List.mem_cons_self b tail)
    have htail : ∀ x ∈ tail, x ≠ 0x07 ∧ x ≠ 0x1b :=
      fun x hx => hp x (List.mem_cons_of_mem b hx)
    simp only [List.length_cons] at hi
    rw [List.cons_append]
    simp only [findOscTerminatorAux]
    rw [if_neg hb.1, if_neg (fun hc => hb.2 hc.1),
      if_neg (show ¬ i > 4096 by omega)]
    rw [ih htail (i + 1) (by omega)]
    simp only [List.length_cons, Option.some.injEq, Prod.mk.injEq]
    exact ⟨by omega, trivial⟩

/-- The main scan of an empty buffer yields nothing. -/
theorem scanOscMain_nil (intro : List Nat) (parse : List Nat → Option α) :
    scanOscMain intro parse [] = ([], []) := by
  unfold scanOscMain
  rfl

/-- Pure ASCII byte sequences are valid UTF-8. -/
theorem isValidUtf8_of_ascii (p : List Nat) (hp : ∀ b ∈ p, b < 0x80) :
    isValidUtf8 p = true := by
  have key : ∀ (l : List Nat), (∀ b ∈ l, b < 0x80) →
      l.foldl utf8Step (some []) = some [] := by
    intro l
    induction l with
    | nil => intro _; rfl
    | cons b rest ih =>
      intro h
      have hb := h b (List.mem_cons_self b rest)
      rw [List.foldl_cons, show utf8Step (some []) b = some [] by
        simp only [utf8Step]; rw [if_pos (show b ≤ 0x7F by omega)]]
      exact ih (fun x hx => h x (List.mem_cons_of_mem b hx))
  unfold isValidUtf8
  rw [key p hp]

/-- The main OSC 7 scan on an introducer followed by a clean unterminated
payload emits nothing and leaves the payload in the continuation buffer. -/
theorem scanOscMain_osc7_unterminated (p : List Nat)
    (hp : ∀ b ∈ p, b ≠ 0x07 ∧ b ≠ 0x1b) :
    scanOscMain osc7Intro oscParse7 (osc7Intro ++ p) = ([], p) := by
  have hfind : find_osc_terminator p = none :=
    findOscTerminatorAux_none_of_clean p hp 0
  have hpre : List.isPrefixOf osc7Intro (0x1b :: 0x5d :: 0x37 :: 0x3b :: p) = true := by
    rw [List.isPrefixOf_iff_prefix]
    exact List.prefix_append osc7Intro p
  show scanOscMain osc7Intro oscParse7
      (0x1b :: 0x5d :: 0x37 :: 0x3b :: p) = ([], p)
  unfold scanOscMain
  rw [if_pos ⟨rfl, hpre⟩]
  simp only [osc7Intro, List.length_cons, List.length_nil, List.drop_succ_cons,
    List.drop_zero]
  split
  · rename_i e t heq
    rw [hfind] at heq
    cases heq
  · rfl

/-- The main OSC 7 scan on a complete in-batch sequence with a clean ASCII
payload and a BEL terminator emits exactly that payload, provided the
terminator search stays within its index guard. -/
theorem scanOscMain_osc7_complete (p : List Nat) (rest : List Nat)
    (hp : ∀ b ∈ p, b ≠ 0x07 ∧ b ≠ 0x1b ∧ b < 0x80)
    (hlen : p.length ≤ 4097) :
    scanOscMain osc7Intro oscParse7 (osc7Intro ++ p ++ 0x07 :: rest) =
      (p :: (scanOscMain osc7Intro oscParse7 rest).1,
        (scanOscMain osc7Intro oscParse7 rest).2) := by
  have hclean : ∀ b ∈ p, b ≠ 0x07 ∧ b ≠ 0x1b := fun b hb => ⟨(hp b hb).1, (hp b hb).2.1⟩
  have hascii : ∀ b ∈ p, b < 0x80 := fun b hb => (hp b hb).2.2
  have hfind : find_osc_terminator (p ++ 0x07 :: rest) = some (p.length, 1) := by
    have := findOscTerminatorAux_clean_bel p rest hclean 0 (by omega)
    simpa [find_osc_terminator] using this
  have hpre : List.isPrefixOf osc7Intro
      (0x1b :: 0x5d :: 0x37 :: 0x3b :: (p ++ 0x07 :: rest)) = true := by
    rw [List.isPrefixOf_iff_prefix]
    exact List.prefix_append osc7Intro (p ++ 0x07 :: rest)
  show scanOscMain osc7Intro oscParse7
      (0x1b :: 0x5d :: 0x37 :: 0x3b :: (p ++ 0x07 :: rest)) = _
  conv_lhs => rw [scanOscMain]
  rw [if_pos ⟨rfl, hpre⟩]
  simp only [osc7Intro, List.length_cons, List.length_nil, List.drop_succ_cons,
    List.drop_zero]
  split
  · rename_i e t heq
    rw [hfind] at heq
    cases heq
    have htake : (p ++ 0x07 :: rest).take p.length = p := List.take_left p _
    have hdrop : (p ++ 0x07 :: rest).drop (p.length + 1) = rest := by
      rw [show p.length + 1 = (p ++ [0x07]).length by simp]
      rw [show p ++ 0x07 :: rest = (p ++ [0x07]) ++ rest by simp]
      exact List.drop_left _ _
    rw [htake, hdrop, show oscParse7 p = some p by
      unfold oscParse7; rw [if_pos (isValidUtf8_of_ascii p hascii)]]
    rfl
  · rename_i heq
    rw [hfind] at heq
    cases heq

/-! ### Claim theorems: OSC scanning -/

/-- C1: the 4 KiB payload cap leaks.  A single batch containing an OSC 7
whose payload is 4097 bytes long (which exceeds 4096 = 4 KiB) is emitted as
a directory-change event instead of being dropped: `find_osc_terminator`
accepts a terminator found at index 4097, so the oversized payload passes.
This evaluates the embedded `scan_osc7` at the failing input. -/
theorem scan_osc7_emits_oversized_payload :
    (scan_osc7 (osc7Intro ++ (List.replicate 4097 0x61 ++ 0x07 :: [])) []).1
        = [List.replicate 4097 0x61]
    ∧ 4096 < (List.replicate 4097 (0x61 : Nat)).length := by
  constructor
  · have h : scan_osc7 (osc7Intro ++ (List.replicate 4097 0x61 ++ 0x07 :: [])) []
        = scanOscMain osc7Intro oscParse7
            (osc7Intro ++ List.replicate 4097 0x61 ++ 0x07 :: []) := by
      rw [scan_osc7, if_pos rfl, List.append_assoc]
    rw [h, scanOscMain_osc7_complete, scanOscMain_nil]
    · intro b hb
      have := List.eq_of_mem_replicate hb
      subst this
      refine ⟨by norm_num, by norm_num, by norm_num⟩
    · rw [List.length_replicate]
  · rw [List.length_replicate]
    norm_num

/-- C6: an OSC 7 split across two batches — introducer plus a non-empty clean
ASCII payload fragment in batch A, the remaining fragment and the BEL
terminator in batch B, total payload within the 4 KiB cap — emits nothing in
batch A, carries the fragment in the continuation buffer, and in batch B
emits exactly one directory payload equal to the concatenation of the two
fragments, leaving the continuation buffer empty. -/
theorem scan_osc7_split_across_batches (p1 p2 : List Nat)
    (hne : p1 ≠ [])
    (hbytes : ∀ b ∈ p1 ++ p2, b ≠ 0x07 ∧ b ≠ 0x1b ∧ b < 0x80)
    (hlen : p1.length + p2.length ≤ 4096) :
    scan_osc7 (osc7Intro ++ p1) [] = ([], p1)
    ∧ scan_osc7 (p2 ++ 0x07 :: []) p1 = ([p1 ++ p2], []) := by
  have hb1 : ∀ b ∈ p1, b ≠ 0x07 ∧ b ≠ 0x1b ∧ b < 0x80 :=
    fun b hb => hbytes b (List.mem_append_left _ hb)
  have hb2 : ∀ b ∈ p2, b ≠ 0x07 ∧ b ≠ 0x1b ∧ b < 0x80 :=
    fun b hb => hbytes b (List.mem_append_right _ hb)
  constructor
  · rw [scan_osc7, if_pos rfl]
    exact scanOscMain_osc7_unterminated p1 (fun b hb => ⟨(hb1 b hb).1, (hb1 b hb).2.1⟩)
  · rw [scan_osc7, if_neg hne]
    have hfind : find_osc_terminator (p2 ++ 0x07 :: []) = some (p2.length, 1) := by
      have := findOscTerminatorAux_clean_bel p2 []
        (fun b hb => ⟨(hb2 b hb).1, (hb2 b hb).2.1⟩) 0 (by omega)
      simpa [find_osc_terminator] using this
    rw [hfind]
    show ((oscParse7 (p1 ++ (p2 ++ 0x07 :: []).take p2.length)).toList ++
        (scanOscMain osc7Intro oscParse7 ((p2 ++ 0x07 :: []).drop (p2.length + 1))).1,
      (scanOscMain osc7Intro oscParse7 ((p2 ++ 0x07 :: []).drop (p2.length + 1))).2)
      = ([p1 ++ p2], [])
    have htake : (p2 ++ 0x07 :: []).take p2.length = p2 := List.take_left p2 _
    have hdrop : (p2 ++ 0x07 :: []).drop (p2.length + 1) = [] := by
      rw [show p2.length + 1 = (p2 ++ 0x07 :: []).length by simp]
      exact List.drop_length _
    rw [htake, hdrop, scanOscMain_nil]
    have hvalid : oscParse7 (p1 ++ p2) = some (p1 ++ p2) := by
      unfold oscParse7
      rw [if_pos (isValidUtf8_of_ascii _ (fun b hb => (hbytes b hb).2.2))]
    rw [hvalid]
    rfl

/-- Witness for C6 at a concrete split: payload "a" + "b". -/
theorem scan_osc7_split_across_batches_witness :
    (([0x61] : List Nat) ≠ []
      ∧ (∀ b ∈ ([0x61] ++ [0x62] : List Nat), b ≠ 0x07 ∧ b ≠ 0x1b ∧ b < 0x80)
      ∧ ([0x61] : List Nat).length + ([0x62] : List Nat).length ≤ 4096)
    ∧ (scan_osc7 (osc7Intro ++ [0x61]) [] = ([], [0x61])
        ∧ scan_osc7 ([0x62] ++ 0x07 :: []) [0x61] = ([[0x61, 0x62]], [])) := by
  refine ⟨⟨by decide, by decide, by decide⟩, ?_⟩
  exact scan_osc7_split_across_batches [0x61] [0x62] (by decide) (by decide) (by decide)

/-- C7 counterexample: the claim's "iff" fails.  For content "1;x" the first
';'-separated field parses as the integer 1, which is in {0,1,2,3,4}, yet
`parse_osc94_content` drops the event because the progress field fails to
parse as a signed integer. -/
theorem parse_osc94_state_iff_counterexample :
    parseU8 [0x31] = some 1 ∧ 1 ≤ 4
    ∧ parse_osc94_content [0x31, 0x3B, 0x78] = none := by
  refine ⟨by decide, by decide, by decide⟩

/-- C7 amended: OSC 9;4 parsing succeeds iff the content is valid UTF-8, the
first field parses as a u8 state in {0,1,2,3,4}, and any present non-empty
progress field parses as an i32; progress defaults to −1 when the field is
absent or empty.  In particular "3" yields state 3 / progress −1 and "1;50"
yields state 1 / progress 50. -/
theorem parse_osc94_content_amended :
    (∀ c, parse_osc94_content c = osc94AmendedSpec c)
    ∧ parse_osc94_content [0x33] = some ⟨3, -1⟩
    ∧ parse_osc94_content [0x31, 0x3B, 0x35, 0x30] = some ⟨1, 50⟩ := by
  refine ⟨?_, by decide, by decide⟩
  intro c
  by_cases hv : isValidUtf8 c = true
  case neg =>
    unfold parse_osc94_content osc94AmendedSpec
    rw [if_neg hv, if_pos hv]
  case pos =>
    unfold parse_osc94_content osc94AmendedSpec
    rw [if_pos hv, if_neg (not_not_intro hv)]
    cases hsplit : c.splitOn 0x3B with
    | nil => rfl
    | cons f0 restFields =>
      cases hst : parseU8 f0 with
      | none => simp only [List.headD_cons, hst]
      | some st =>
        simp only [List.headD_cons, hst]
        by_cases h4 : st ≤ 4
        · rw [if_neg (show ¬ st > 4 by omega), if_pos h4]
          cases restFields with
          | nil => rfl
          | cons f1 more =>
            simp only [List.getD_cons_succ, List.getD_cons_zero]
            by_cases hf1 : f1 = []
            · rw [if_pos hf1, if_pos hf1]
            · rw [if_neg hf1, if_neg hf1]
              cases hp : parseI32 f1 <;> simp [hp]
        · rw [if_pos (show st > 4 by omega), if_neg h4]

/-! ## grid_snapshot.rs: incremental sparse snapshots -/

/-- An RGB triple (`alacritty_terminal::vte::ansi::Rgb`); channels are u8. -/
structure RgbS where
  r : Nat
  g : Nat
  b : Nat
  deriving DecidableEq, Repr

/-- The cell-flag bits of `alacritty_terminal::term::cell::Flags` consulted by
grid_snapshot.rs. -/
structure FlagsS where
  bold : Bool
  italic : Bool
  underline : Bool
  strikeout : Bool
  dim : Bool
  inverse : Bool
  wideChar : Bool
  wideCharSpacer : Bool
  hidden : Bool
  deriving DecidableEq, Repr

/-- `alacritty_terminal::vte::ansi::Color`: a direct RGB, a named color (its
discriminant as `usize`), or a palette index (u8). -/
inductive ColorS
  | spec (rgb : RgbS)
  | named (idx : Nat)
  | indexed (idx : Nat)
  deriving DecidableEq, Repr

/-- Discriminant of `NamedColor::Foreground`. -/
def NAMED_FG : Nat := 256

/-- Discriminant of `NamedColor::Background`. -/
def NAMED_BG : Nat := 257

/-- A grid cell: codepoint, foreground, backgroundification and flags. -/
structure CellS where
  c : Nat
  fg : ColorS
  bg : ColorS
  flags : FlagsS
  deriving DecidableEq, Repr

/-- Per-instance color palette (handle.rs `ColorPalette`): 16 ANSI colors
plus default foreground/background. -/
structure PaletteS where
  ansi : List RgbS
  fg : RgbS
  bg : RgbS
  deriving DecidableEq, Repr

/-- A grid point (`alacritty_terminal::index::Point`): line (may be negative
into history) and column. -/
structure PointS where
  line : Int
  col : Nat
  deriving DecidableEq, Repr

/-- Lexicographic order on grid points, as derived for alacritty's `Point`. -/
def pointLe (a b : PointS) : Prop :=
  a.line < b.line ∨ (a.line = b.line ∧ a.col ≤ b.col)

instance (a b : PointS) : Decidable (pointLe a b) := by
  unfold pointLe
  infer_instance

/-- A search match (`RangeInclusive<Point>`): start and end points. -/
structure MatchS where
  start : PointS
  stop : PointS
  deriving DecidableEq, Repr

/-- Embeds `resolve_color` (grid_snapshot.rs lines 104-155).  The terminal's
`Colors` table is a partial map from color indices to RGB. -/
def resolve_color (color : ColorS) (colors : Nat → Option RgbS)
    (is_foreground : Bool) (palette : PaletteS) : RgbS :=
  match color with
  | .spec rgb => rgb
  | .named idx =>
    match colors idx with
    | some rgb => rgb
    | none =>
      if idx = NAMED_FG then (colors NAMED_FG).getD palette.fg
      else if idx = NAMED_BG then (colors NAMED_BG).getD palette.bg
      else if idx < 16 then palette.ansi.getD idx ⟨0, 0, 0⟩
      else if is_foreground then palette.fg
      else palette.bg
  | .indexed i =>
    match colors i with
    | some rgb => rgb
    | none =>
      if i < 16 then palette.ansi.getD i ⟨0, 0, 0⟩
      else if i < 232 then
        let idx := i - 16
        let r := idx / 36
        let g := (idx / 6) % 6
        let b := idx % 6
        ⟨if r > 0 then r * 40 + 55 else 0,
          if g > 0 then g * 40 + 55 else 0,
          if b > 0 then b * 40 + 55 else 0⟩
      else
        let v := 8 + (i - 232) * 10
        ⟨v, v, v⟩

/-- Embeds `map_flags` (grid_snapshot.rs lines 158-188). -/
def map_flags (flags : FlagsS) : Nat :=
  (if flags.bold then 0x01 else 0) |||
  (if flags.italic then 0x02 else 0) |||
  (if flags.underline then 0x04 else 0) |||
  (if flags.strikeout then 0x08 else 0) |||
  (if flags.dim then 0x10 else 0) |||
  (if flags.inverse then 0x20 else 0) |||
  (if flags.wideChar then 0x40 else 0) |||
  (if flags.wideCharSpacer then 0x80 else 0) |||
  (if flags.hidden then 0x100 else 0)

/-- Embeds `has_default_bg` (grid_snapshot.rs lines 192-199): the effective
background (the foreground when INVERSE is set) is `Named(Background)`. -/
def has_default_bg (cell : CellS) : Bool :=
  let bg_color := if cell.flags.inverse then cell.fg else cell.bg
  match bg_color with
  | ColorS.named idx => idx == NAMED_BG
  | _ => false

/-- A sparse cell record (`ClaideCellData`); `row`/`col` are u16 casts. -/
structure CellDataS where
  row : Nat
  col : Nat
  codepoint : Nat
  fg_r : Nat
  fg_g : Nat
  fg_b : Nat
  bg_r : Nat
  bg_g : Nat
  bg_b : Nat
  flags : Nat
  deriving DecidableEq, Repr

/-- The record pushed by `process_row` for a non-trivial cell: resolve colors
(swapped under INVERSE), halve fg channels under DIM, map flags and OR in
SELECTED (0x200) / SEARCH_MATCH (0x400). -/
def sparseCell (cell : CellS) (rowIdx colIdx : Nat)
    (colors : Nat → Option RgbS) (palette : PaletteS)
    (selected isMatch : Bool) : CellDataS :=
  let fgbg :=
    if cell.flags.inverse then
      (resolve_color cell.bg colors true palette,
        resolve_color cell.fg colors false palette)
    else
      (resolve_color cell.fg colors true palette,
        resolve_color cell.bg colors false palette)
  let fg := if cell.flags.dim then
      (⟨fgbg.1.r / 2, fgbg.1.g / 2, fgbg.1.b / 2⟩ : RgbS)
    else fgbg.1
  let bg := fgbg.2
  let cell_flags := map_flags cell.flags |||
    (if selected then 0x200 else 0) ||| (if isMatch then 0x400 else 0)
  { row := rowIdx % 65536, col := colIdx % 65536, codepoint := cell.c,
    fg_r := fg.r, fg_g := fg.g, fg_b := fg.b,
    bg_r := bg.r, bg_g := bg.g, bg_b := bg.b, flags := cell_flags }

/-- The code's selection test
`selection_range.as_ref().is_some_and(|r| r.contains(point))`; the range is
kept abstract as a containment predicate (`SelectionRange::contains` belongs
to the VT library). -/
def selectedAt (selectionContains : Option (PointS → Bool)) (point : PointS) : Bool :=
  match selectionContains with
  | some f => f point
  | none => false

/-- The code's search-match test
`search_match.is_some_and(|m| point >= *m.start() && point <= *m.end())`. -/
def matchAt (searchMatch : Option MatchS) (point : PointS) : Bool :=
  match searchMatch with
  | some m => decide (pointLe m.start point) && decide (pointLe point m.stop)
  | none => false

/-- Embeds `process_row` (grid_snapshot.rs lines 204-273). -/
def process_row (gridRow : Nat → CellS) (rowIdx cols : Nat) (line : Int)
    (colors : Nat → Option RgbS) (palette : PaletteS)
    (selectionContains : Option (PointS → Bool))
    (searchMatch : Option MatchS) : List CellDataS :=
  (List.range cols).filterMap fun colIdx =>
    let cell := gridRow colIdx
    let point : PointS := ⟨line, colIdx⟩
    let selected := selectedAt selectionContains point
    let isMatch := matchAt searchMatch point
    let cp := cell.c
    let isBlank := cp == 0x20 || cp == 0x00 || cp == 0x7F
    let isWide := cell.flags.wideChar || cell.flags.wideCharSpacer
    if isBlank && has_default_bg cell && !selected && !isMatch && !isWide then none
    else some (sparseCell cell rowIdx colIdx colors palette selected isMatch)

/-- Cursor shapes (`CursorShape`). -/
inductive CursorShapeS
  | block
  | underline
  | beam
  | hollowBlock
  | hidden
  deriving DecidableEq, Repr

/-- The ABI shape encoding of `take_snapshot_incremental` (lines 372-378). -/
def cursorShapeId : CursorShapeS → Nat
  | .block => 0
  | .underline => 1
  | .beam => 2
  | .hollowBlock => 4
  | .hidden => 3

/-- The locked terminal state consulted by `take_snapshot_incremental`:
dimensions, display offset, grid lookup by (line, column), the `Colors`
table, mode bits, both cursors, the configured cursor style, and the
selection (already converted to a containment predicate by `to_range`). -/
structure TermStateS where
  rows : Nat
  cols : Nat
  displayOffset : Nat
  grid : Int → Nat → CellS
  colors : Nat → Option RgbS
  modeVi : Bool
  modeShowCursor : Bool
  modeBits : Nat
  cursorLine : Int
  cursorCol : Nat
  viCursorLine : Int
  viCursorCol : Nat
  cursorStyleShape : CursorShapeS
  selectionRange : Option (PointS → Bool)

/-- `ClaideCursorInfo` (u32 row/col, shape id, visibility). -/
structure ClaideCursorInfoS where
  row : Nat
  col : Nat
  shape : Nat
  visible : Bool
  deriving DecidableEq, Repr

/-- `ClaideGridSnapshot`: the flat sparse array, its length (u32 cast),
dimensions (u32 casts), cursor, mode bits and sampled padding background. -/
structure ClaideGridSnapshotS where
  cells : List CellDataS
  cell_count : Nat
  rows : Nat
  cols : Nat
  cursor : ClaideCursorInfoS
  mode_flags : Nat
  padding_bg_r : Nat
  padding_bg_g : Nat
  padding_bg_b : Nat

/-- `PersistentGrid` (grid_snapshot.rs lines 59-75). -/
structure PersistentGridS where
  row_cells : List (List CellDataS)
  total_cells : Nat
  grid_rows : Nat
  grid_cols : Nat
  deriving Repr

/-- `PersistentGrid::new`. -/
def PersistentGridS.new : PersistentGridS :=
  { row_cells := [], total_cells := 0, grid_rows := 0, grid_cols := 0 }

/-- The per-row rebuild step shared by the full and damaged paths:
`line = row_idx - display_offset`, then `process_row` on that grid row. -/
def rebuildRow (t : TermStateS) (palette : PaletteS)
    (searchMatch : Option MatchS) (rowIdx : Nat) : List CellDataS :=
  let line : Int := (rowIdx : Int) - (t.displayOffset : Int)
  process_row (t.grid line) rowIdx t.cols line t.colors palette
    t.selectionRange searchMatch

/-- The loop body of the full-rebuild path (grid_snapshot.rs lines 338-344):
recompute the row, add its length to the running aggregate, store it. -/
def fullRebuildStep (t : TermStateS) (palette : PaletteS)
    (searchMatch : Option MatchS) (g : PersistentGridS) (rowIdx : Nat) :
    PersistentGridS :=
  let new_row := rebuildRow t palette searchMatch rowIdx
  { g with total_cells := g.total_cells + new_row.length,
           row_cells := g.row_cells.set rowIdx new_row }

/-- The loop body of the damaged-rows path (grid_snapshot.rs lines 347-359):
skip out-of-range rows, otherwise swap the cached row and adjust the
aggregate by the length difference. -/
def damagedStep (t : TermStateS) (palette : PaletteS)
    (searchMatch : Option MatchS) (rows : Nat) (g : PersistentGridS)
    (rowIdx : Nat) : PersistentGridS :=
  if rowIdx ≥ rows then g
  else
    let new_row := rebuildRow t palette searchMatch rowIdx
    { g with
      total_cells :=
        g.total_cells - (g.row_cells.getD rowIdx []).length + new_row.length,
      row_cells := g.row_cells.set rowIdx new_row }

/-- Embeds `take_snapshot_incremental` (grid_snapshot.rs lines 283-399).
Returns the snapshot together with the updated persistent grid (the Rust
function mutates it through `&mut`).  A damaged row is reduced to its line
index, the only field the code reads.  `u32`/`u16` casts are written as
explicit remainders. -/
def take_snapshot_incremental (t : TermStateS) (palette : PaletteS)
    (searchMatch : Option MatchS) (g0 : PersistentGridS)
    (damagedRows : Option (List Nat)) : ClaideGridSnapshotS × PersistentGridS :=
  let rows := t.rows
  let cols := t.cols
  let display_offset := t.displayOffset
  let vi_mode := t.modeVi
  let cursor_point : PointS :=
    if vi_mode then ⟨t.viCursorLine, t.viCursorCol⟩ else ⟨t.cursorLine, t.cursorCol⟩
  let cursor_point :=
    if (t.grid cursor_point.line cursor_point.col).flags.wideCharSpacer then
      (⟨cursor_point.line, cursor_point.col - 1⟩ : PointS)
    else cursor_point
  let cursor_shape :=
    if !vi_mode && !t.modeShowCursor then CursorShapeS.hidden
    else t.cursorStyleShape
  let last_line : Int := ((rows : Int) - 1) - (display_offset : Int)
  let last_row_cell := t.grid last_line 0
  let padding_bg :=
    if last_row_cell.flags.inverse then
      resolve_color last_row_cell.fg t.colors false palette
    else
      resolve_color last_row_cell.bg t.colors false palette
  let dimensions_changed := g0.grid_rows ≠ rows ∨ g0.grid_cols ≠ cols
  let full_rebuild := damagedRows.isNone || decide dimensions_changed
  let g1 :=
    if dimensions_changed then
      { g0 with
        row_cells := g0.row_cells.take rows ++
          List.replicate (rows - g0.row_cells.length) [],
        grid_rows := rows, grid_cols := cols }
    else g0
  let g2 :=
    if full_rebuild then
      (List.range rows).foldl (fullRebuildStep t palette searchMatch)
        { g1 with total_cells := 0 }
    else
      match damagedRows with
      | some damaged =>
        damaged.foldl (damagedStep t palette searchMatch rows) g1
      | none => g1
  let cells := g2.row_cells.flatten
  let cell_count := cells.length % 4294967296
  let cursor_shape_id := cursorShapeId cursor_shape
  let cursor_row := (cursor_point.line + (display_offset : Int)).toNat % 4294967296
  let cursor_col := cursor_point.col % 4294967296
  ({ cells := cells,
     cell_count := cell_count,
     rows := rows % 4294967296,
     cols := cols % 4294967296,
     cursor := { row := cursor_row, col := cursor_col,
                 shape := cursor_shape_id, visible := cursor_shape_id ≠ 3 },
     mode_flags := t.modeBits,
     padding_bg_r := padding_bg.r,
     padding_bg_g := padding_bg.g,
     padding_bg_b := padding_bg.b }, g2)

/-- `DEFAULT_ANSI` (grid_snapshot.rs lines 78-95). -/
def DEFAULT_ANSI : List RgbS := [
  ⟨0x00, 0x00, 0x00⟩, ⟨0xff, 0x5c, 0x57⟩, ⟨0x5a, 0xf7, 0x8e⟩, ⟨0xf3, 0xf9, 0x9d⟩,
  ⟨0x57, 0xc7, 0xff⟩, ⟨0xff, 0x6a, 0xc1⟩, ⟨0x9a, 0xed, 0xfe⟩, ⟨0xf1, 0xf1, 0xf0⟩,
  ⟨0x68, 0x68, 0x68⟩, ⟨0xff, 0x5c, 0x57⟩, ⟨0x5a, 0xf7, 0x8e⟩, ⟨0xf3, 0xf9, 0x9d⟩,
  ⟨0x57, 0xc7, 0xff⟩, ⟨0xff, 0x6a, 0xc1⟩, ⟨0x9a, 0xed, 0xfe⟩, ⟨0xef, 0xf0, 0xeb⟩]

/-- `DEFAULT_FG` (grid_snapshot.rs line 98). -/
def DEFAULT_FG : RgbS := ⟨0xef, 0xf0, 0xeb⟩

/-- `DEFAULT_BG` (grid_snapshot.rs line 100). -/
def DEFAULT_BG : RgbS := ⟨0x15, 0x17, 0x28⟩

/-- `ColorPalette::default()` (handle.rs lines 48-56). -/
def defaultPalette : PaletteS := ⟨DEFAULT_ANSI, DEFAULT_FG, DEFAULT_BG⟩

/-- All cell flags cleared. -/
def noFlags : FlagsS := ⟨false, false, false, false, false, false, false, false, false⟩

/-- A blank cell: a space with default foreground and background. -/
def spaceCell : CellS :=
  { c := 0x20, fg := .named NAMED_FG, bg := .named NAMED_BG, flags := noFlags }

/-! ### Claim theorems: snapshot cursor (C2) -/

/-- A concrete reachable terminal state: a 2×2 grid scrolled 3 lines into
history, with the live cursor on the bottom screen line. -/
def termC2 : TermStateS :=
  { rows := 2, cols := 2, displayOffset := 3,
    grid := fun _ _ => spaceCell,
    colors := fun _ => none,
    modeVi := false, modeShowCursor := true, modeBits := 0,
    cursorLine := 1, cursorCol := 0,
    viCursorLine := 0, viCursorCol := 0,
    cursorStyleShape := .block,
    selectionRange := none }

/-- C2 counterexample: with the viewport scrolled into history
(display_offset = 3) and the grid cursor on screen line 1 of a 2-row grid,
the snapshot reports cursor.row = 1 + 3 = 4, violating cursor.row < rows = 2:
the code clamps the row only from below (`.max(0)`), never against `rows`. -/
theorem take_snapshot_cursor_row_counterexample :
    (take_snapshot_incremental termC2 defaultPalette none PersistentGridS.new none).1.cursor.row = 4
    ∧ (take_snapshot_incremental termC2 defaultPalette none PersistentGridS.new none).1.rows = 2
    ∧ ¬ (4 < 2) := by
  refine ⟨rfl, rfl, by omega⟩

/-- C2 amended: under the grid invariants (grid cursor line in `[0, rows)`,
vi cursor line below `rows`, columns in range), the snapshot cursor satisfies
`cursor.row < rows + display_offset` (with `cursor.row < rows` exactly when
the viewport is not scrolled, `display_offset = 0`) and `cursor.col < cols`;
the claimed unconditional bound `cursor.row < rows` holds only in that
unscrolled case. -/
theorem take_snapshot_cursor_bounds
    (t : TermStateS) (palette : PaletteS) (searchMatch : Option MatchS)
    (g0 : PersistentGridS) (damagedRows : Option (List Nat))
    (hrows : 0 < t.rows)
    (hcur : t.modeVi = false →
      0 ≤ t.cursorLine ∧ t.cursorLine < (t.rows : Int) ∧ t.cursorCol < t.cols)
    (hvi : t.modeVi = true → t.viCursorLine < (t.rows : Int) ∧ t.viCursorCol < t.cols)
    (h32 : t.rows + t.displayOffset < 4294967296)
    (hc32 : t.cols ≤ 4294967296) :
    ((take_snapshot_incremental t palette searchMatch g0 damagedRows).1.cursor.row
        < t.rows + t.displayOffset)
    ∧ (t.displayOffset = 0 →
        (take_snapshot_incremental t palette searchMatch g0 damagedRows).1.cursor.row
          < t.rows)
    ∧ (take_snapshot_incremental t palette searchMatch g0 damagedRows).1.cursor.col
        < t.cols := by
  cases hmode : t.modeVi with
  | false =>
    obtain ⟨h0, h1, h2⟩ := hcur hmode
    simp [take_snapshot_incremental, hmode]
    split_ifs <;> (dsimp only) <;> omega
  | true =>
    obtain ⟨h1, h2⟩ := hvi hmode
    simp [take_snapshot_incremental, hmode]
    split_ifs <;> (dsimp only) <;> omega

/-- A concrete state for the C2 witness: a 3×4 grid scrolled 2 lines into
history with the cursor at line 1, column 2. -/
def termC2W : TermStateS :=
  { rows := 3, cols := 4, displayOffset := 2,
    grid := fun _ _ => spaceCell,
    colors := fun _ => none,
    modeVi := false, modeShowCursor := true, modeBits := 0,
    cursorLine := 1, cursorCol := 2,
    viCursorLine := 0, viCursorCol := 0,
    cursorStyleShape := .beam,
    selectionRange := none }

/-- Witness for the amended C2 bound at a concrete scrolled state. -/
theorem take_snapshot_cursor_bounds_witness :
    ((take_snapshot_incremental termC2W defaultPalette none PersistentGridS.new none).1.cursor.row
        < termC2W.rows + termC2W.displayOffset)
    ∧ (termC2W.displayOffset = 0 →
        (take_snapshot_incremental termC2W defaultPalette none PersistentGridS.new none).1.cursor.row
          < termC2W.rows)
    ∧ (take_snapshot_incremental termC2W defaultPalette none PersistentGridS.new none).1.cursor.col
        < termC2W.cols :=
  take_snapshot_cursor_bounds termC2W defaultPalette none PersistentGridS.new none
    (by decide) (fun _ => by decide) (fun h => by simp [termC2W] at h) (by decide) (by decide)

/-! ### Claim theorems: sparse cell emission (C5) -/

theorem filterMap_eq_filter_map (f : α → Option β) (p : α → Bool) (g : α → β) :
    ∀ (l : List α), (∀ x ∈ l, f x = if p x then some (g x) else none) →
      l.filterMap f = (l.filter p).map g := by
  intro l
  induction l with
  | nil => intro _; rfl
  | cons a tl ih =>
    intro h
    have ih' := ih (fun x hx => h x (List.mem_cons_of_mem a hx))
    by_cases hp : p a = true
    · have ha : f a = some (g a) := by rw [h a (List.mem_cons_self a tl), if_pos hp]
      simp only [List.filterMap_cons, ha, List.filter_cons_of_pos hp, List.map_cons, ih']
    · have ha : f a = none := by rw [h a (List.mem_cons_self a tl), if_neg hp]
      simp only [List.filterMap_cons, ha, List.filter_cons_of_neg hp, ih']

/-- Modelled from the claim: a cell is TRIVIAL iff its codepoint is in
{0x00, 0x20, 0x7F}, its effective background (after accounting for INVERSE)
is the terminal default, it is not inside the selection range, it does not
intersect the current search match, and it carries neither WIDE_CHAR nor
WIDE_CHAR_SPACER. -/
def cellTrivialSpec (cell : CellS) (point : PointS)
    (sel : Option (PointS → Bool)) (sm : Option MatchS) : Prop :=
  (cell.c = 0x00 ∨ cell.c = 0x20 ∨ cell.c = 0x7F)
  ∧ (if cell.flags.inverse then cell.fg else cell.bg) = ColorS.named NAMED_BG
  ∧ selectedAt sel point = false
  ∧ matchAt sm point = false
  ∧ cell.flags.wideChar = false ∧ cell.flags.wideCharSpacer = false

instance (cell : CellS) (point : PointS) (sel : Option (PointS → Bool))
    (sm : Option MatchS) : Decidable (cellTrivialSpec cell point sel sm) := by
  unfold cellTrivialSpec
  infer_instance

/-- `process_row` emits a record exactly for the non-trivial columns, in
column order (helper for the claim theorem). -/
theorem process_row_filter_map_spec
    (gridRow : Nat → CellS) (rowIdx cols : Nat) (line : Int)
    (colors : Nat → Option RgbS) (palette : PaletteS)
    (sel : Option (PointS → Bool)) (sm : Option MatchS) :
    process_row gridRow rowIdx cols line colors palette sel sm
      = ((List.range cols).filter
            (fun colIdx =>
              decide (¬ cellTrivialSpec (gridRow colIdx) ⟨line, colIdx⟩ sel sm))).map
          (fun colIdx =>
            sparseCell (gridRow colIdx) rowIdx colIdx colors palette
              (selectedAt sel ⟨line, colIdx⟩) (matchAt sm ⟨line, colIdx⟩)) := by
  unfold process_row
  apply filterMap_eq_filter_map
  intro colIdx _
  dsimp only
  by_cases htriv : cellTrivialSpec (gridRow colIdx) ⟨line, colIdx⟩ sel sm
  · obtain ⟨hblank, hbg, hsel, hsm, hwc, hwcs⟩ := id htriv
    have h1 : ((gridRow colIdx).c == 0x20 || (gridRow colIdx).c == 0x00
        || (gridRow colIdx).c == 0x7F) = true := by
      rcases hblank with h | h | h <;> simp [h]
    have h2 : has_default_bg (gridRow colIdx) = true := by
      unfold has_default_bg
      rw [hbg]
      simp [NAMED_BG]
    rw [if_pos (by simp [h1, h2, hsel, hsm, hwc, hwcs]),
      if_neg (by simp [htriv])]
  · rw [if_neg ?_, if_pos (by simp [htriv])]
    cases hg : ((gridRow colIdx).c == 0x20 || (gridRow colIdx).c == 0x00
        || (gridRow colIdx).c == 0x7F) && has_default_bg (gridRow colIdx)
        && !selectedAt sel ⟨line, colIdx⟩ && !matchAt sm ⟨line, colIdx⟩
        && !((gridRow colIdx).flags.wideChar || (gridRow colIdx).flags.wideCharSpacer) with
    | false => simp [hg]
    | true =>
      exfalso
      apply htriv
      simp only [Bool.and_eq_true, Bool.not_eq_true', Bool.or_eq_true,
        beq_iff_eq, Bool.or_eq_false_iff] at hg
      obtain ⟨⟨⟨⟨hb, hdb⟩, hs⟩, hm⟩, hw1, hw2⟩ := hg
      refine ⟨?_, ?_, hs, hm, hw1, hw2⟩
      · rcases hb with (h | h) | h
        · exact Or.inr (Or.inl h)
        · exact Or.inl h
        · exact Or.inr (Or.inr h)
      · unfold has_default_bg at hdb
        cases hcol : (if (gridRow colIdx).flags.inverse then (gridRow colIdx).fg
            else (gridRow colIdx).bg) with
        | named idx =>
          rw [hcol] at hdb
          simp only [beq_iff_eq] at hdb
          rw [hdb]
        | spec rgb => rw [hcol] at hdb; simp at hdb
        | indexed i => rw [hcol] at hdb; simp at hdb

/-! ### Shared lemmas about the full-rebuild fold -/

theorem fullRebuildStep_rowcells (t : TermStateS) (palette : PaletteS)
    (sm : Option MatchS) (g : PersistentGridS) (i : Nat) :
    (fullRebuildStep t palette sm g i).row_cells
      = g.row_cells.set i (rebuildRow t palette sm i) := rfl

theorem fullRebuildStep_total (t : TermStateS) (palette : PaletteS)
    (sm : Option MatchS) (g : PersistentGridS) (i : Nat) :
    (fullRebuildStep t palette sm g i).total_cells
      = g.total_cells + (rebuildRow t palette sm i).length := rfl

theorem fullRebuild_foldl_rowcells (t : TermStateS) (palette : PaletteS)
    (sm : Option MatchS) :
    ∀ (n : Nat) (g : PersistentGridS), n ≤ g.row_cells.length →
      ((List.range n).foldl (fullRebuildStep t palette sm) g).row_cells
        = (List.range n).map (rebuildRow t palette sm) ++ g.row_cells.drop n := by
  intro n
  induction n with
  | zero => intro g _; simp
  | succ m ih =>
    intro g hg
    rw [List.range_succ, List.foldl_append, List.foldl_cons, List.foldl_nil]
    rw [fullRebuildStep_rowcells, ih g (by omega)]
    rw [List.set_append_right _ _ (by simp)]
    rw [List.drop_eq_getElem_cons (show m < g.row_cells.length by omega)]
    rw [show m - ((List.range m).map (rebuildRow t palette sm)).length = 0 by simp]
    rw [List.set_cons_zero]
    simp

theorem fullRebuild_foldl_total (t : TermStateS) (palette : PaletteS)
    (sm : Option MatchS) :
    ∀ (n : Nat) (g : PersistentGridS),
      ((List.range n).foldl (fullRebuildStep t palette sm) g).total_cells
        = g.total_cells
          + (((List.range n).map (rebuildRow t palette sm)).map List.length).sum := by
  intro n
  induction n with
  | zero => intro g; simp
  | succ m ih =>
    intro g
    rw [List.range_succ, List.foldl_append, List.foldl_cons, List.foldl_nil]
    rw [fullRebuildStep_total, ih g]
    simp [List.map_append, Nat.add_assoc]

theorem fullRebuild_foldl_dims (t : TermStateS) (palette : PaletteS)
    (sm : Option MatchS) :
    ∀ (idxs : List Nat) (g : PersistentGridS),
      ((idxs.foldl (fullRebuildStep t palette sm) g).grid_rows = g.grid_rows
        ∧ (idxs.foldl (fullRebuildStep t palette sm) g).grid_cols = g.grid_cols) := by
  intro idxs
  induction idxs with
  | nil => intro g; exact ⟨rfl, rfl⟩
  | cons a tl ih =>
    intro g
    rw [List.foldl_cons]
    exact ih (fullRebuildStep t palette sm g a)

/-! ### Shared lemmas about the damaged-rows fold -/

theorem sum_map_length_set (x : List α) :
    ∀ (l : List (List α)) (i : Nat), i < l.length →
      ((l.set i x).map List.length).sum + (l.getD i []).length
        = (l.map List.length).sum + x.length := by
  intro l
  induction l with
  | nil => intro i h; simp at h
  | cons a tl ih =>
    intro i h
    cases i with
    | zero =>
      simp only [List.set_cons_zero, List.map_cons, List.sum_cons, List.getD_cons_zero]
      omega
    | succ j =>
      simp only [List.set_cons_succ, List.map_cons, List.sum_cons, List.getD_cons_succ]
      have := ih j (by simp at h; omega)
      omega

theorem getD_length_le_sum :
    ∀ (l : List (List α)) (i : Nat),
      (l.getD i []).length ≤ (l.map List.length).sum := by
  intro l
  induction l with
  | nil => intro i; simp [List.getD]
  | cons a tl ih =>
    intro i
    cases i with
    | zero => simp
    | succ j =>
      simp only [List.getD_cons_succ, List.map_cons, List.sum_cons]
      have := ih j
      omega

theorem damaged_foldl_invariant (t : TermStateS) (palette : PaletteS)
    (sm : Option MatchS) (rows : Nat) :
    ∀ (ds : List Nat) (g : PersistentGridS),
      g.row_cells.length = rows →
      g.total_cells = (g.row_cells.map List.length).sum →
      ((ds.foldl (damagedStep t palette sm rows) g).row_cells.length = rows
        ∧ (ds.foldl (damagedStep t palette sm rows) g).total_cells
            = (((ds.foldl (damagedStep t palette sm rows) g).row_cells.map List.length).sum)
        ∧ (ds.foldl (damagedStep t palette sm rows) g).grid_rows = g.grid_rows
        ∧ (ds.foldl (damagedStep t palette sm rows) g).grid_cols = g.grid_cols) := by
  intro ds
  induction ds with
  | nil => intro g h1 h2; exact ⟨h1, h2, rfl, rfl⟩
  | cons d tl ih =>
    intro g h1 h2
    rw [List.foldl_cons]
    by_cases hd : d ≥ rows
    · rw [show damagedStep t palette sm rows g d = g by
        unfold damagedStep; rw [if_pos hd]]
      exact ih g h1 h2
    · have hstep : damagedStep t palette sm rows g d
          = { g with
              total_cells := g.total_cells
                - (g.row_cells.getD d []).length
                + (rebuildRow t palette sm d).length,
              row_cells := g.row_cells.set d (rebuildRow t palette sm d) } := by
        unfold damagedStep
        rw [if_neg hd]
      rw [hstep]
      have hdlen : d < g.row_cells.length := by omega
      have hsum := sum_map_length_set (rebuildRow t palette sm d) g.row_cells d hdlen
      have hle := getD_length_le_sum g.row_cells d
      have h1' : (g.row_cells.set d (rebuildRow t palette sm d)).length = rows := by
        simp [h1]
      have h2' : g.total_cells - (g.row_cells.getD d []).length
            + (rebuildRow t palette sm d).length
          = ((g.row_cells.set d (rebuildRow t palette sm d)).map List.length).sum := by
        omega
      exact ih _ h1' h2'

/-! ### Characterization of the updated persistent grid -/

/-- The persistent-grid component computed by `take_snapshot_incremental`
(definitionally equal to its second result; see
`take_snapshot_incremental_snd`). -/
def snapshotGrid (t : TermStateS) (palette : PaletteS) (sm : Option MatchS)
    (g0 : PersistentGridS) (dmg : Option (List Nat)) : PersistentGridS :=
  let rows := t.rows
  let cols := t.cols
  let dimensions_changed := g0.grid_rows ≠ rows ∨ g0.grid_cols ≠ cols
  let full_rebuild := dmg.isNone || decide dimensions_changed
  let g1 :=
    if dimensions_changed then
      { g0 with
        row_cells := g0.row_cells.take rows ++
          List.replicate (rows - g0.row_cells.length) [],
        grid_rows := rows, grid_cols := cols }
    else g0
  if full_rebuild then
    (List.range rows).foldl (fullRebuildStep t palette sm) { g1 with total_cells := 0 }
  else
    match dmg with
    | some damaged => damaged.foldl (damagedStep t palette sm rows) g1
    | none => g1

theorem take_snapshot_incremental_snd (t : TermStateS) (palette : PaletteS)
    (sm : Option MatchS) (g0 : PersistentGridS) (dmg : Option (List Nat)) :
    (take_snapshot_incremental t palette sm g0 dmg).2
      = snapshotGrid t palette sm g0 dmg := rfl

theorem take_snapshot_incremental_cell_count (t : TermStateS) (palette : PaletteS)
    (sm : Option MatchS) (g0 : PersistentGridS) (dmg : Option (List Nat)) :
    (take_snapshot_incremental t palette sm g0 dmg).1.cell_count
      = ((snapshotGrid t palette sm g0 dmg).row_cells.flatten).length % 4294967296 := rfl

theorem snapshotGrid_spec (t : TermStateS) (palette : PaletteS)
    (sm : Option MatchS) (g0 : PersistentGridS) (dmg : Option (List Nat))
    (hlen : g0.row_cells.length = g0.grid_rows)
    (htot : g0.total_cells = (g0.row_cells.map List.length).sum) :
    ((snapshotGrid t palette sm g0 dmg).row_cells.length = t.rows
      ∧ (snapshotGrid t palette sm g0 dmg).grid_rows = t.rows
      ∧ (snapshotGrid t palette sm g0 dmg).grid_cols = t.cols
      ∧ (snapshotGrid t palette sm g0 dmg).total_cells
          = ((snapshotGrid t palette sm g0 dmg).row_cells.map List.length).sum
      ∧ (((g0.grid_rows ≠ t.rows ∨ g0.grid_cols ≠ t.cols) ∨ dmg = none) →
          (snapshotGrid t palette sm g0 dmg).row_cells
            = (List.range t.rows).map (rebuildRow t palette sm))) := by
  unfold snapshotGrid
  dsimp only
  by_cases hdim : g0.grid_rows ≠ t.rows ∨ g0.grid_cols ≠ t.cols
  · rw [if_pos hdim, if_pos (by simp [hdim])]
    have hlen1 : (g0.row_cells.take t.rows ++
        List.replicate (t.rows - g0.row_cells.length) []).length = t.rows := by
      simp only [List.length_append, List.length_take, List.length_replicate]
      omega
    have hrc := fullRebuild_foldl_rowcells t palette sm t.rows
      { g0 with
        row_cells := g0.row_cells.take t.rows ++
          List.replicate (t.rows - g0.row_cells.length) [],
        grid_rows := t.rows, grid_cols := t.cols, total_cells := 0 }
      (le_of_eq hlen1.symm)
    have htc := fullRebuild_foldl_total t palette sm t.rows
      { g0 with
        row_cells := g0.row_cells.take t.rows ++
          List.replicate (t.rows - g0.row_cells.length) [],
        grid_rows := t.rows, grid_cols := t.cols, total_cells := 0 }
    have hdims := fullRebuild_foldl_dims t palette sm (List.range t.rows)
      { g0 with
        row_cells := g0.row_cells.take t.rows ++
          List.replicate (t.rows - g0.row_cells.length) [],
        grid_rows := t.rows, grid_cols := t.cols, total_cells := 0 }
    rw [List.drop_eq_nil_of_le (by dsimp only; omega)] at hrc
    rw [List.append_nil] at hrc
    refine ⟨?_, ?_, ?_, ?_, fun _ => hrc⟩
    · rw [hrc]; simp
    · rw [hdims.1]
    · rw [hdims.2]
    · rw [htc, hrc]
      simp
  · rw [if_neg hdim]
    have heq : g0.grid_rows = t.rows ∧ g0.grid_cols = t.cols := by
      by_contra hc
      apply hdim
      tauto
    cases dmg with
    | none =>
      rw [if_pos (by simp)]
      have hlen0 : t.rows ≤ g0.row_cells.length := by omega
      have hrc := fullRebuild_foldl_rowcells t palette sm t.rows
        { g0 with total_cells := 0 } (by dsimp only; omega)
      have htc := fullRebuild_foldl_total t palette sm t.rows
        { g0 with total_cells := 0 }
      have hdims := fullRebuild_foldl_dims t palette sm (List.range t.rows)
        { g0 with total_cells := 0 }
      rw [List.drop_eq_nil_of_le (by dsimp only; omega)] at hrc
      rw [List.append_nil] at hrc
      refine ⟨?_, ?_, ?_, ?_, fun _ => hrc⟩
      · rw [hrc]; simp
      · rw [hdims.1]; exact heq.1
      · rw [hdims.2]; exact heq.2
      · rw [htc, hrc]
        simp
    | some ds =>
      rw [if_neg (by simp [hdim])]
      have hinv := damaged_foldl_invariant t palette sm t.rows ds g0
        (by omega) htot
      refine ⟨hinv.1, ?_, ?_, hinv.2.1, ?_⟩
      · rw [hinv.2.2.1]; exact heq.1
      · rw [hinv.2.2.2]; exact heq.2
      · intro h
        rcases h with h | h
        · exact absurd h hdim
        · exact absurd h (by simp)

/-- A row of blank default-background cells with no selection and no search
match produces no sparse cells. -/
theorem rebuildRow_trivial (t : TermStateS) (palette : PaletteS) (rowIdx : Nat)
    (hgrid : ∀ (l : Int) (c : Nat), (t.grid l c).c = 0x20
      ∧ (t.grid l c).flags.inverse = false
      ∧ (t.grid l c).bg = ColorS.named NAMED_BG
      ∧ (t.grid l c).flags.wideChar = false
      ∧ (t.grid l c).flags.wideCharSpacer = false)
    (hsel : t.selectionRange = none) :
    rebuildRow t palette none rowIdx = [] := by
  unfold rebuildRow process_row
  rw [List.filterMap_eq_nil_iff]
  intro colIdx _
  dsimp only
  obtain ⟨hc, hinv, hbg, hwc, hwcs⟩ :=
    hgrid ((rowIdx : Int) - (t.displayOffset : Int)) colIdx
  simp [hc, hsel, selectedAt, matchAt, has_default_bg, hinv, hbg, NAMED_BG, hwc, hwcs]

/-- C5: `process_row` emits a sparse record exactly for the non-trivial
cells (trivial iff codepoint in {0x00, 0x20, 0x7F}, effective background the
terminal default under INVERSE, not selected, not on the search match, and
not wide), and consequently a full snapshot of a screen of blanks on the
default background with no selection and no search match has cell_count 0. -/
theorem process_row_sparse_iff_nontrivial :
    (∀ (gridRow : Nat → CellS) (rowIdx cols : Nat) (line : Int)
        (colors : Nat → Option RgbS) (palette : PaletteS)
        (sel : Option (PointS → Bool)) (sm : Option MatchS),
      process_row gridRow rowIdx cols line colors palette sel sm
        = ((List.range cols).filter
              (fun colIdx =>
                decide (¬ cellTrivialSpec (gridRow colIdx) ⟨line, colIdx⟩ sel sm))).map
            (fun colIdx =>
              sparseCell (gridRow colIdx) rowIdx colIdx colors palette
                (selectedAt sel ⟨line, colIdx⟩) (matchAt sm ⟨line, colIdx⟩)))
    ∧ (∀ (t : TermStateS) (palette : PaletteS) (g0 : PersistentGridS),
        (∀ (l : Int) (c : Nat), (t.grid l c).c = 0x20
          ∧ (t.grid l c).flags.inverse = false
          ∧ (t.grid l c).bg = ColorS.named NAMED_BG
          ∧ (t.grid l c).flags.wideChar = false
          ∧ (t.grid l c).flags.wideCharSpacer = false) →
        t.selectionRange = none →
        g0.row_cells.length = g0.grid_rows →
        g0.total_cells = (g0.row_cells.map List.length).sum →
        (take_snapshot_incremental t palette none g0 none).1.cell_count = 0) := by
  constructor
  · exact process_row_filter_map_spec
  · intro t palette g0 hgrid hsel hlen htot
    have hspec := snapshotGrid_spec t palette none g0 none hlen htot
    have hrows : (snapshotGrid t palette none g0 none).row_cells
        = (List.range t.rows).map (rebuildRow t palette none) :=
      hspec.2.2.2.2 (Or.inr rfl)
    rw [take_snapshot_incremental_cell_count, hrows]
    have hz : ((List.range t.rows).map (rebuildRow t palette none)).flatten.length = 0 := by
      rw [List.length_flatten]
      apply List.sum_eq_zero
      intro x hx
      simp only [List.map_map, List.mem_map, Function.comp] at hx
      obtain ⟨i, _, hi⟩ := hx
      rw [← hi, rebuildRow_trivial t palette i hgrid hsel]
      rfl
    rw [hz]

/-- Witness for C5 at a concrete all-blank screen. -/
theorem process_row_sparse_iff_nontrivial_witness :
    (take_snapshot_incremental termC2 defaultPalette none PersistentGridS.new none).1.cell_count
      = 0 :=
  process_row_sparse_iff_nontrivial.2 termC2 defaultPalette PersistentGridS.new
    (fun _ _ => ⟨rfl, rfl, rfl, rfl, rfl⟩) rfl rfl rfl

/-! ### Claim theorems: persistent cache invariant (C8) -/

/-- C8: `take_snapshot_incremental` preserves the persistent-cache invariant
for any interleaving of full rebuilds, damaged-row rebuilds and grid-size
changes: afterwards the cache has one entry per screen line, records the
current dimensions, the tracked aggregate equals the sum of per-row lengths,
the snapshot's cell_count is that aggregate (as a u32), and on a grid-size
change the cache contents are fully rebuilt from the current grid
(independent of the previous cache). -/
theorem take_snapshot_incremental_cache_invariant
    (t : TermStateS) (palette : PaletteS) (sm : Option MatchS)
    (g0 : PersistentGridS) (dmg : Option (List Nat))
    (hlen : g0.row_cells.length = g0.grid_rows)
    (htot : g0.total_cells = (g0.row_cells.map List.length).sum) :
    ((take_snapshot_incremental t palette sm g0 dmg).2.row_cells.length = t.rows)
    ∧ (take_snapshot_incremental t palette sm g0 dmg).2.grid_rows = t.rows
    ∧ (take_snapshot_incremental t palette sm g0 dmg).2.grid_cols = t.cols
    ∧ (take_snapshot_incremental t palette sm g0 dmg).2.total_cells
        = (((take_snapshot_incremental t palette sm g0 dmg).2.row_cells.map List.length).sum)
    ∧ (take_snapshot_incremental t palette sm g0 dmg).1.cell_count
        = (take_snapshot_incremental t palette sm g0 dmg).2.total_cells % 4294967296
    ∧ ((g0.grid_rows ≠ t.rows ∨ g0.grid_cols ≠ t.cols) →
        (take_snapshot_incremental t palette sm g0 dmg).2.row_cells
          = (List.range t.rows).map (rebuildRow t palette sm)) := by
  have hspec := snapshotGrid_spec t palette sm g0 dmg hlen htot
  rw [take_snapshot_incremental_snd, take_snapshot_incremental_cell_count]
  refine ⟨hspec.1, hspec.2.1, hspec.2.2.1, hspec.2.2.2.1, ?_,
    fun h => hspec.2.2.2.2 (Or.inl h)⟩
  rw [List.length_flatten, ← hspec.2.2.2.1]

/-- Witness for C8 at a concrete state with a grid-size change and a
damaged-row list. -/
theorem take_snapshot_incremental_cache_invariant_witness :
    ((take_snapshot_incremental termC2 defaultPalette none PersistentGridS.new
        (some [0])).2.row_cells.length = termC2.rows)
    ∧ (take_snapshot_incremental termC2 defaultPalette none PersistentGridS.new
        (some [0])).2.grid_rows = termC2.rows
    ∧ (take_snapshot_incremental termC2 defaultPalette none PersistentGridS.new
        (some [0])).2.grid_cols = termC2.cols
    ∧ (take_snapshot_incremental termC2 defaultPalette none PersistentGridS.new
        (some [0])).2.total_cells
        = (((take_snapshot_incremental termC2 defaultPalette none PersistentGridS.new
            (some [0])).2.row_cells.map List.length).sum)
    ∧ (take_snapshot_incremental termC2 defaultPalette none PersistentGridS.new
        (some [0])).1.cell_count
        = (take_snapshot_incremental termC2 defaultPalette none PersistentGridS.new
            (some [0])).2.total_cells % 4294967296
    ∧ ((PersistentGridS.new.grid_rows ≠ termC2.rows
          ∨ PersistentGridS.new.grid_cols ≠ termC2.cols) →
        (take_snapshot_incremental termC2 defaultPalette none PersistentGridS.new
            (some [0])).2.row_cells
          = (List.range termC2.rows).map (rebuildRow termC2 defaultPalette none)) :=
  take_snapshot_incremental_cache_invariant termC2 defaultPalette none
    PersistentGridS.new (some [0]) rfl rfl

/-! ## handle.rs: selection operations (C3) -/

/-- `alacritty_terminal::index::Side`. -/
inductive SideS
  | left
  | right
  deriving DecidableEq, Repr

/-- `alacritty_terminal::selection::SelectionType`. -/
inductive SelectionTypeS
  | simple
  | block
  | semantic
  | lines
  deriving DecidableEq, Repr

/-- The library's `Selection`: `Selection::new(ty, point, side)` anchors both
region ends at the given point; `update(point, side)` moves the end. -/
structure SelectionS where
  ty : SelectionTypeS
  startPoint : PointS
  startSide : SideS
  endPoint : PointS
  endSide : SideS
  deriving DecidableEq, Repr

/-- `Selection::new`. -/
def Selection_new (ty : SelectionTypeS) (point : PointS) (side : SideS) : SelectionS :=
  ⟨ty, point, side, point, side⟩

/-- `Selection::update`. -/
def Selection_update (s : SelectionS) (point : PointS) (side : SideS) : SelectionS :=
  { s with endPoint := point, endSide := side }

/-- The locked terminal fragment the selection operations touch: the grid's
display offset and the optional selection. -/
structure SelTermS where
  displayOffset : Nat
  selection : Option SelectionS
  deriving DecidableEq, Repr

/-- Embeds `TerminalHandle::selection_start` (handle.rs lines 329-333): the
stored point is `Point::new(Line(row), Column(col))`, built directly from the
arguments. -/
def selection_start (t : SelTermS) (row : Int) (col : Nat)
    (side : SideS) (ty : SelectionTypeS) : SelTermS :=
  { t with selection := some (Selection_new ty ⟨row, col⟩ side) }

/-- Embeds `TerminalHandle::selection_update` (handle.rs lines 336-342). -/
def selection_update (t : SelTermS) (row : Int) (col : Nat) (side : SideS) : SelTermS :=
  match t.selection with
  | some sel => { t with selection := some (Selection_update sel ⟨row, col⟩ side) }
  | none => t

/-- C3 counterexample: with the viewport scrolled three lines into history,
`selection_start` with viewport-relative row 0 stores grid line 0, not the
display_offset-adjusted line 0 − 3 = −3 that addresses the line actually
visible at the top of the screen (the adjustment the snapshot and `row_text`
paths perform via `Line(row − display_offset)`). -/
theorem selection_start_offset_counterexample :
    ((selection_start ⟨3, none⟩ 0 0 .left .simple).selection.map
        (fun s => s.startPoint.line)) = some 0
    ∧ (0 : Int) - (3 : Int) ≠ (0 : Int)
    ∧ (⟨3, none⟩ : SelTermS).displayOffset = 3 := by
  refine ⟨rfl, by decide, rfl⟩

/-- C3 amended: `selection_start` and `selection_update` store the row
argument directly as the grid line — no display_offset adjustment happens,
so the argument is interpreted in grid coordinates (0 = top of the live
screen area, negative = history), regardless of the current scroll
position. -/
theorem selection_start_update_store_raw (t : SelTermS) (row : Int) (col : Nat)
    (side : SideS) (ty : SelectionTypeS) :
    ((selection_start t row col side ty).selection
        = some ⟨ty, ⟨row, col⟩, side, ⟨row, col⟩, side⟩)
    ∧ ((selection_start t row col side ty).displayOffset = t.displayOffset)
    ∧ (∀ sel, t.selection = some sel →
        (selection_update t row col side).selection
          = some { sel with endPoint := ⟨row, col⟩, endSide := side })
    ∧ (t.selection = none → selection_update t row col side = t) := by
  refine ⟨rfl, rfl, ?_, ?_⟩
  · intro sel hsel
    unfold selection_update
    rw [hsel]
    rfl
  · intro hnone
    unfold selection_update
    rw [hnone]

/-- Witness for the amended C3 at a concrete scrolled state. -/
theorem selection_start_update_store_raw_witness :
    ((selection_update ⟨5, some (Selection_new .simple ⟨2, 1⟩ .left)⟩ (-1) 4 .right).selection
        = some { (Selection_new .simple ⟨2, 1⟩ .left) with
            endPoint := (⟨-1, 4⟩ : PointS), endSide := SideS.right })
    ∧ (selection_update (⟨5, none⟩ : SelTermS) (-1) 4 .right = ⟨5, none⟩) :=
  ⟨(selection_start_update_store_raw ⟨5, some (Selection_new .simple ⟨2, 1⟩ .left)⟩
      (-1) 4 .right .simple).2.2.1 _ rfl,
    (selection_start_update_store_raw (⟨5, none⟩ : SelTermS) (-1) 4 .right .simple).2.2.2 rfl⟩

/-! ## handle.rs: child environment (C4) -/

/-- POSIX `setenv(key, value, overwrite = 1)` over an environment list:
replace the value of an existing entry, else append a new one. -/
def setenvF (e : List (String × String)) (k v : String) : List (String × String) :=
  if e.any (fun kv => kv.1 = k) then
    e.map (fun kv => if kv.1 = k then (k, v) else kv)
  else e ++ [(k, v)]

/-- The child-side environment setup of `TerminalHandle::new` (handle.rs
lines 148-153): starting from the inherited parent environment, apply
`setenv(key, value, 1)` for each supplied pair in order; `execvp` then passes
the resulting environment on. -/
def childEnv (parent : List (String × String)) (envPairs : List (String × String)) :
    List (String × String) :=
  envPairs.foldl (fun e kv => setenvF e kv.1 kv.2) parent

/-- C4 counterexample: with parent environment {HOME → /root} and supplied
pairs {TERM → xterm}, the child environment still contains HOME, so it does
not consist of precisely the supplied pairs: the child is set up with
`setenv` over the inherited environment and `execvp`, with no `clearenv`. -/
theorem childEnv_inherits_counterexample :
    childEnv [("HOME", "/root")] [("TERM", "xterm")]
        = [("HOME", "/root"), ("TERM", "xterm")]
    ∧ (List.lookup "HOME" (childEnv [("HOME", "/root")] [("TERM", "xterm")])
        = some "/root")
    ∧ (∀ kv ∈ ([("TERM", "xterm")] : List (String × String)), kv.1 ≠ "HOME") := by
  refine ⟨by decide, by decide, by decide⟩

theorem lookup_map_overwrite (a : String) (b k : String) (hne : a ≠ k) :
    ∀ (e : List (String × String)),
      List.lookup k (e.map (fun kv => if kv.1 = a then (a, b) else kv))
        = List.lookup k e := by
  intro e
  induction e with
  | nil => rfl
  | cons hd tl ih =>
    obtain ⟨x, y⟩ := hd
    rw [List.map_cons]
    by_cases hx : x = a
    · rw [if_pos hx]
      have h1 : (k == a) = false := by simp [Ne.symm hne]
      have h2 : (k == x) = false := by rw [hx]; simp [Ne.symm hne]
      simp only [List.lookup_cons, h1, h2]
      exact ih
    · rw [if_neg hx]
      simp only [List.lookup_cons]
      cases k == x
      · exact ih
      · rfl

theorem lookup_append_single_ne (a b k : String) (hne : a ≠ k)
    (e : List (String × String)) :
    List.lookup k (e ++ [(a, b)]) = List.lookup k e := by
  rw [List.lookup_append]
  have h1 : List.lookup k [(a, b)] = none := by
    have hka : (k == a) = false := by simp [Ne.symm hne]
    simp only [List.lookup_cons, hka, List.lookup_nil]
  rw [h1]
  cases List.lookup k e <;> rfl

theorem lookup_setenvF_ne (e : List (String × String)) (a b k : String)
    (hne : a ≠ k) :
    List.lookup k (setenvF e a b) = List.lookup k e := by
  unfold setenvF
  split
  · exact lookup_map_overwrite a b k hne e
  · exact lookup_append_single_ne a b k hne e

theorem lookup_childEnv_unsupplied (k : String) :
    ∀ (envPairs : List (String × String)) (parent : List (String × String)),
      (∀ kv ∈ envPairs, kv.1 ≠ k) →
      List.lookup k (childEnv parent envPairs) = List.lookup k parent := by
  intro envPairs
  induction envPairs with
  | nil => intro parent _; rfl
  | cons hd tl ih =>
    intro parent h
    unfold childEnv
    rw [List.foldl_cons]
    have step := ih (setenvF parent hd.1 hd.2)
      (fun kv hkv => h kv (List.mem_cons_of_mem hd hkv))
    unfold childEnv at step
    rw [step]
    exact lookup_setenvF_ne parent hd.1 hd.2 k (h hd (List.mem_cons_self hd tl))

theorem lookup_map_overwrite_self (a b : String) :
    ∀ (e : List (String × String)),
      (e.any fun kv => kv.1 = a) = true →
      List.lookup a (e.map (fun kv => if kv.1 = a then (a, b) else kv)) = some b := by
  intro e
  induction e with
  | nil => intro hany; simp at hany
  | cons hd tl ih =>
    intro hany
    obtain ⟨x, y⟩ := hd
    rw [List.map_cons]
    by_cases hx : x = a
    · rw [if_pos hx, List.lookup_cons_self]
    · rw [if_neg hx]
      have hax : (a == x) = false :=
        beq_eq_false_iff_ne.mpr (fun h => hx (Eq.symm h))
      simp only [List.lookup_cons, hax]
      apply ih
      simp only [List.any_cons, Bool.or_eq_true, decide_eq_true_eq] at hany
      rcases hany with h | h
      · exact absurd h hx
      · simp [h]

theorem lookup_setenvF_self (a b : String) (e : List (String × String)) :
    List.lookup a (setenvF e a b) = some b := by
  unfold setenvF
  split
  · rename_i hany
    exact lookup_map_overwrite_self a b e hany
  · rename_i hany
    rw [List.lookup_append]
    have h1 : List.lookup a [(a, b)] = some b := List.lookup_cons_self
    have h2 : List.lookup a e = none := by
      rw [List.lookup_eq_none_iff]
      intro p hp
      simp only [List.any_eq_true, decide_eq_true_eq, not_exists, not_and] at hany
      have hne := hany p hp
      rw [bne_iff_ne]
      exact fun h => hne (Eq.symm h)
    rw [h1, h2]
    rfl

theorem lookup_childEnv_supplied (k v : String) :
    ∀ (envPairs : List (String × String)) (parent : List (String × String)),
      (envPairs.map Prod.fst).Nodup → (k, v) ∈ envPairs →
      List.lookup k (childEnv parent envPairs) = some v := by
  intro envPairs
  induction envPairs with
  | nil => intro parent _ hkv; simp at hkv
  | cons hd tl ih =>
    intro parent hnodup hkv
    rw [List.map_cons, List.nodup_cons] at hnodup
    unfold childEnv
    rw [List.foldl_cons]
    rcases List.mem_cons.mp hkv with heq | hmem
    · have hhd1 : hd.1 = k := by rw [← heq]
      have hknotl : ∀ kv ∈ tl, kv.1 ≠ k := by
        intro kv hkv2 hk1
        apply hnodup.1
        rw [hhd1, ← hk1]
        exact List.mem_map_of_mem Prod.fst hkv2
      have step := lookup_childEnv_unsupplied k tl (setenvF parent hd.1 hd.2) hknotl
      unfold childEnv at step
      rw [step]
      have hrw : setenvF parent hd.1 hd.2 = setenvF parent k v := by rw [← heq]
      rw [hrw]
      exact lookup_setenvF_self k v parent
    · exact ih (setenvF parent hd.1 hd.2) hnodup.2 hmem

/-- C4 amended: the child environment is the inherited parent environment
with each supplied pair applied via overwriting `setenv`, in order: every
supplied key maps to its supplied value, and keys that are not supplied keep
their parent value — nothing is cleared, so the parent environment is
inherited. -/
theorem childEnv_amended (parent envPairs : List (String × String))
    (hnodup : (envPairs.map Prod.fst).Nodup) :
    (∀ k v, (k, v) ∈ envPairs →
      List.lookup k (childEnv parent envPairs) = some v)
    ∧ (∀ k, (∀ kv ∈ envPairs, kv.1 ≠ k) →
        List.lookup k (childEnv parent envPairs) = List.lookup k parent) := by
  constructor
  · intro k v hkv
    exact lookup_childEnv_supplied k v envPairs parent hnodup hkv
  · intro k h
    exact lookup_childEnv_unsupplied k envPairs parent h

/-- Witness for the amended C4. -/
theorem childEnv_amended_witness :
    List.lookup "TERM" (childEnv [("HOME", "/root")] [("TERM", "xterm"), ("LANG", "C")])
        = some "xterm"
    ∧ List.lookup "HOME" (childEnv [("HOME", "/root")] [("TERM", "xterm"), ("LANG", "C")])
        = some "/root" :=
  ⟨(childEnv_amended [("HOME", "/root")] [("TERM", "xterm"), ("LANG", "C")]
      (by decide)).1 "TERM" "xterm" (by decide),
    (childEnv_amended [("HOME", "/root")] [("TERM", "xterm"), ("LANG", "C")]
      (by decide)).2 "HOME" (by decide)⟩

/-! ## handle.rs: search (C9) -/

/-- The terminal fragment consulted by `search_set` and `scroll_to_match`:
grid dimensions, scrollback extent, display offset, and the grid cursor. -/
structure SearchTermS where
  screenLines : Nat
  historySize : Nat
  displayOffset : Nat
  cursor : PointS
  deriving DecidableEq, Repr

/-- Modelled from alacritty's `Grid::scroll_display(Scroll::Delta(count))`
(the VT library): the display offset moves by `count`, clamped to
`[0, history_size]`. -/
def scroll_display (t : SearchTermS) (delta : Int) : SearchTermS :=
  { t with
    displayOffset :=
      (min (max ((t.displayOffset : Int) + delta) 0) (t.historySize : Int)).toNat }

/-- Embeds `TerminalHandle::scroll_to_match` (handle.rs lines 433-453): leave
the viewport alone when the match is visible, else scroll so the match line
sits near the vertical center. -/
def scroll_to_match (t : SearchTermS) (m : MatchS) : SearchTermS :=
  let display_offset : Int := t.displayOffset
  let screen_lines : Int := t.screenLines
  let match_line := m.start.line
  let top_visible := -display_offset
  let bottom_visible := top_visible + screen_lines - 1
  if match_line ≥ top_visible ∧ match_line ≤ bottom_visible then t
  else
    let target_offset := max (-match_line + screen_lines / 2) 0
    let delta := target_offset - display_offset
    if delta ≠ 0 then scroll_display t delta else t

/-- The handle's `SearchState` (handle.rs lines 71-74); a compiled regex is
represented by its presence (recompiling the same query is deterministic). -/
structure SearchStateS where
  hasRegex : Bool
  current_match : Option MatchS
  deriving DecidableEq, Repr

/-- The handle fragment touched by `search_set`. -/
structure SearchHandleS where
  term : SearchTermS
  search : SearchStateS
  deriving DecidableEq, Repr

/-- Embeds `TerminalHandle::search_set` (handle.rs lines 367-389),
parameterized by the outcome of `RegexSearch::new(query)` (`compileOk`) and
by the library's `search_next` for the fixed buffer contents as a function of
the origin (`searchNext`; the grid buffer and therefore the search outcome do
not change between the calls considered here, and `search_next` does not
depend on the display offset). -/
def search_set (compileOk : Bool) (searchNext : PointS → Option MatchS)
    (h : SearchHandleS) : SearchHandleS × Bool :=
  if ¬ compileOk then
    ({ h with search := { hasRegex := false, current_match := none } }, false)
  else
    let found := searchNext h.term.cursor
    let t1 := match found with
      | some m => scroll_to_match h.term m
      | none => h.term
    ({ term := t1, search := { hasRegex := true, current_match := found } },
      found.isSome)

/-- `scroll_to_match` changes only the display offset. -/
theorem scroll_to_match_frame (t : SearchTermS) (m : MatchS) :
    (scroll_to_match t m).screenLines = t.screenLines
    ∧ (scroll_to_match t m).historySize = t.historySize
    ∧ (scroll_to_match t m).cursor = t.cursor := by
  unfold scroll_to_match scroll_display
  dsimp only
  split
  · exact ⟨rfl, rfl, rfl⟩
  · split
    · exact ⟨rfl, rfl, rfl⟩
    · exact ⟨rfl, rfl, rfl⟩

/-- After `scroll_to_match`, the match line is inside the visible range, and
the display offset stays within the scrollback. -/
theorem scroll_to_match_visible (t : SearchTermS) (m : MatchS)
    (hlo : -(t.historySize : Int) ≤ m.start.line)
    (hhi : m.start.line < (t.screenLines : Int))
    (hsl : 1 ≤ t.screenLines)
    (hoff : t.displayOffset ≤ t.historySize) :
    (m.start.line ≥ -((scroll_to_match t m).displayOffset : Int)
      ∧ m.start.line ≤ -((scroll_to_match t m).displayOffset : Int)
          + (t.screenLines : Int) - 1)
    ∧ (scroll_to_match t m).displayOffset ≤ t.historySize := by
  unfold scroll_to_match scroll_display
  dsimp only
  split
  · refine ⟨?_, hoff⟩
    omega
  · rename_i hnotvis
    split
    · constructor
      · dsimp only
        constructor <;> omega
      · dsimp only
        omega
    · rename_i hdelta
      refine ⟨?_, hoff⟩
      omega

/-- A `scroll_to_match` on an already-visible match is the identity. -/
theorem scroll_to_match_of_visible (t : SearchTermS) (m : MatchS)
    (h1 : m.start.line ≥ -((t.displayOffset : Int)))
    (h2 : m.start.line ≤ -((t.displayOffset : Int)) + (t.screenLines : Int) - 1) :
    scroll_to_match t m = t := by
  unfold scroll_to_match
  dsimp only
  rw [if_pos ⟨h1, h2⟩]

/-- C9: `search_set` is idempotent while the terminal contents and cursor do
not change: running it twice yields exactly the state (stored match, search
state, and viewport position) and result of running it once. -/
theorem search_set_idempotent (compileOk : Bool)
    (searchNext : PointS → Option MatchS) (h : SearchHandleS)
    (hsl : 1 ≤ h.term.screenLines)
    (hoff : h.term.displayOffset ≤ h.term.historySize)
    (hmatch : ∀ m, searchNext h.term.cursor = some m →
      -(h.term.historySize : Int) ≤ m.start.line
        ∧ m.start.line < (h.term.screenLines : Int)) :
    search_set compileOk searchNext (search_set compileOk searchNext h).1
      = search_set compileOk searchNext h := by
  by_cases hc : compileOk
  · cases hfound : searchNext h.term.cursor with
    | none =>
      unfold search_set
      rw [if_neg (by simp [hc]), if_neg (by simp [hc])]
      dsimp only
      rw [hfound]
      dsimp only
      rw [hfound]
    | some m =>
      obtain ⟨hlo, hhi⟩ := hmatch m hfound
      have hframe := scroll_to_match_frame h.term m
      have hvis := scroll_to_match_visible h.term m hlo hhi hsl hoff
      unfold search_set
      rw [if_neg (by simp [hc]), if_neg (by simp [hc])]
      dsimp only
      rw [hfound]
      dsimp only
      rw [hframe.2.2, hfound]
      dsimp only
      have hfix : scroll_to_match (scroll_to_match h.term m) m
          = scroll_to_match h.term m := by
        apply scroll_to_match_of_visible
        · exact hvis.1.1
        · rw [hframe.1]
          exact hvis.1.2
      rw [hfix]
  · unfold search_set
    rw [if_pos (by simp [hc]), if_pos (by simp [hc])]

/-- Witness for C9 at a concrete state: a 2-line screen with 5 lines of
history scrolled to offset 4, and a match on history line −3. -/
theorem search_set_idempotent_witness :
    search_set true (fun _ => some ⟨⟨-3, 0⟩, ⟨-3, 2⟩⟩)
        (search_set true (fun _ => some ⟨⟨-3, 0⟩, ⟨-3, 2⟩⟩)
          ⟨⟨2, 5, 4, ⟨1, 0⟩⟩, ⟨false, none⟩⟩).1
      = search_set true (fun _ => some ⟨⟨-3, 0⟩, ⟨-3, 2⟩⟩)
          ⟨⟨2, 5, 4, ⟨1, 0⟩⟩, ⟨false, none⟩⟩ :=
  search_set_idempotent true (fun _ => some ⟨⟨-3, 0⟩, ⟨-3, 2⟩⟩)
    ⟨⟨2, 5, 4, ⟨1, 0⟩⟩, ⟨false, none⟩⟩ (by decide) (by decide)
    (fun m hm => (Option.some.inj hm) ▸ ⟨by decide, by decide⟩)

/-! ## ffi.rs: null-pointer handling at the C ABI (C10) -/

/-- `ClaideColorPalette` (handle.rs lines 59-68): 48 raw ANSI bytes plus
default foreground/background channels. -/
structure ClaideColorPaletteS where
  ansi : List Nat
  fg_r : Nat
  fg_g : Nat
  fg_b : Nat
  bg_r : Nat
  bg_g : Nat
  bg_b : Nat

/-- A C pointer argument: null or a valid pointee. -/
inductive CPtr (α : Type)
  | null
  | valid (val : α)

/-- The operations a valid handle supports, abstracted over the handle-state
type `σ`: these stand for the `TerminalHandle` methods the FFI functions
delegate to after their null checks. -/
structure HandleImpl (σ : Type) where
  write : σ → List Nat → σ
  write_str : σ → String → σ
  resize : σ → Nat → Nat → Nat → Nat → σ
  resize_grid : σ → Nat → Nat → σ
  resize_grid_no_reflow : σ → Nat → Nat → σ
  notify_pty_size : σ → Nat → Nat → Nat → Nat → σ
  snapshot : σ → σ × ClaideGridSnapshotS
  shell_pid : σ → Nat
  selection_start : σ → Int → Nat → Nat → Nat → σ
  selection_update : σ → Int → Nat → Nat → σ
  selection_clear : σ → σ
  selection_text : σ → Option String
  scroll : σ → Int → σ
  search_set : σ → String → σ × Bool
  search_advance : σ → Bool → σ × Bool
  search_clear : σ → σ
  set_colors : σ → ClaideColorPaletteS → σ
  destroy : σ → σ

/-- The `claide_terminal_*` entry points that take the opaque handle (plus
the two free functions, which take an object pointer); `create` takes no
handle and is not modelled here. -/
inductive FfiCall
  | destroy
  | write (data : CPtr (List Nat))
  | write_str (s : CPtr String)
  | resize (cols rows cw ch : Nat)
  | resize_grid (cols rows : Nat)
  | resize_grid_no_reflow (cols rows : Nat)
  | notify_pty_size (cols rows cw ch : Nat)
  | snapshot
  | snapshot_free (p : CPtr ClaideGridSnapshotS)
  | shell_pid
  | selection_start (row : Int) (col : Nat) (side selTy : Nat)
  | selection_update (row : Int) (col : Nat) (side : Nat)
  | selection_clear
  | selection_text
  | selection_text_free (p : CPtr String)
  | scroll (delta : Int)
  | search_set (q : CPtr String)
  | search_advance (forward : Bool)
  | search_clear
  | set_colors (p : CPtr ClaideColorPaletteS)

/-- Results of the FFI entry points: void, a (possibly null) snapshot or
string pointer, a pid, or a boolean. -/
inductive FfiResult
  | unit
  | snapshotPtr (v : Option ClaideGridSnapshotS)
  | textPtr (v : Option String)
  | pid (v : Nat)
  | boolean (v : Bool)

/-- Embeds the null-check structure of every handle-taking entry point in
ffi.rs: each function first tests the handle pointer (and any required data
pointer) for null and returns without touching anything in that case;
otherwise it delegates to the corresponding `TerminalHandle` method.
`handleNull` is whether the passed handle pointer is null; `st` is the state
behind it when valid (returned unchanged exactly when no method runs). -/
def ffiDispatch (impl : HandleImpl σ) (handleNull : Bool) (st : σ) :
    FfiCall → σ × FfiResult
  | .destroy =>
    if handleNull then (st, .unit) else (impl.destroy st, .unit)
  | .write data =>
    if handleNull then (st, .unit)
    else match data with
      | .null => (st, .unit)
      | .valid d => (impl.write st d, .unit)
  | .write_str s =>
    if handleNull then (st, .unit)
    else match s with
      | .null => (st, .unit)
      | .valid str => (impl.write_str st str, .unit)
  | .resize cols rows cw ch =>
    if handleNull then (st, .unit) else (impl.resize st cols rows cw ch, .unit)
  | .resize_grid cols rows =>
    if handleNull then (st, .unit) else (impl.resize_grid st cols rows, .unit)
  | .resize_grid_no_reflow cols rows =>
    if handleNull then (st, .unit)
    else (impl.resize_grid_no_reflow st cols rows, .unit)
  | .notify_pty_size cols rows cw ch =>
    if handleNull then (st, .unit)
    else (impl.notify_pty_size st cols rows cw ch, .unit)
  | .snapshot =>
    if handleNull then (st, .snapshotPtr none)
    else ((impl.snapshot st).1, .snapshotPtr (some (impl.snapshot st).2))
  | .snapshot_free _ => (st, .unit)
  | .shell_pid =>
    if handleNull then (st, .pid 0) else (st, .pid (impl.shell_pid st))
  | .selection_start row col side selTy =>
    if handleNull then (st, .unit)
    else (impl.selection_start st row col side selTy, .unit)
  | .selection_update row col side =>
    if handleNull then (st, .unit)
    else (impl.selection_update st row col side, .unit)
  | .selection_clear =>
    if handleNull then (st, .unit) else (impl.selection_clear st, .unit)
  | .selection_text =>
    if handleNull then (st, .textPtr none)
    else (st, .textPtr (impl.selection_text st))
  | .selection_text_free _ => (st, .unit)
  | .scroll delta =>
    if handleNull then (st, .unit) else (impl.scroll st delta, .unit)
  | .search_set q =>
    if handleNull then (st, .boolean false)
    else match q with
      | .null => (st, .boolean false)
      | .valid query =>
        ((impl.search_set st query).1, .boolean (impl.search_set st query).2)
  | .search_advance forward =>
    if handleNull then (st, .boolean false)
    else ((impl.search_advance st forward).1,
      .boolean (impl.search_advance st forward).2)
  | .search_clear =>
    if handleNull then (st, .unit) else (impl.search_clear st, .unit)
  | .set_colors p =>
    if handleNull then (st, .unit)
    else match p with
      | .null => (st, .unit)
      | .valid pal => (impl.set_colors st pal, .unit)

/-- The neutral value each entry point returns on a null handle: null
pointers for `snapshot` and `selection_text`, 0 for `shell_pid`, false for
`search_set` and `search_advance`, and nothing for the void operations. -/
def neutralResult : FfiCall → FfiResult
  | .snapshot => .snapshotPtr none
  | .selection_text => .textPtr none
  | .shell_pid => .pid 0
  | .search_set _ => .boolean false
  | .search_advance _ => .boolean false
  | _ => .unit

/-- C10: every handle-taking `claide_terminal_*` entry point, given a null
handle pointer, performs no operation (the state is untouched, no handle
method runs) and returns the neutral value for its return type; the
entry points with a required data pointer (`write`, `write_str`,
`search_set`, `set_colors`) behave the same when that pointer is null even
with a valid handle. -/
theorem ffi_null_is_neutral_noop :
    (∀ (σ : Type) (impl : HandleImpl σ) (st : σ) (c : FfiCall),
      ffiDispatch impl true st c = (st, neutralResult c))
    ∧ (∀ (σ : Type) (impl : HandleImpl σ) (st : σ),
        ffiDispatch impl false st (.write .null) = (st, .unit)
        ∧ ffiDispatch impl false st (.write_str .null) = (st, .unit)
        ∧ ffiDispatch impl false st (.search_set .null) = (st, .boolean false)
        ∧ ffiDispatch impl false st (.set_colors .null) = (st, .unit)) := by
  constructor
  · intro σ impl st c
    cases c <;> rfl
  · intro σ impl st
    exact ⟨rfl, rfl, rfl, rfl⟩

end Claide
